import Mathlib

/-!
Verification of the MVVM-structure scaffolding tool against its specification.

The CLI layer is embedded from `src/bin/index.js`.  The core generator
(`lib/generator.js`, required at `src/bin/index.js` line 9) is not part of the
source tree, so the Write Policy Engine, Path Resolver and Config Patcher are
modelled from the specification (spec §3, §4.1–§4.3); each such definition is
marked `Modelled from the spec:` in its doc comment.
-/

namespace MVVM

/-! ## CLI layer, embedded from src/bin/index.js -/

/-- The shape of a parsed `package.json` as far as `validateProjectDirectory`
reads it: the key sets of the `dependencies` and `devDependencies` objects
(`none` when the key is absent from the document). -/
structure PackageJson where
  dependencies : Option (List String)
  devDependencies : Option (List String)
deriving DecidableEq, Repr

/-- The state of the target directory as observed by the CLI: presence of the
two required files and the result of `fs.readJson` on `package.json`
(`Except.error` when the file is unparseable JSON). -/
structure ProjectDir where
  hasPackageJson : Bool
  hasAppJson : Bool
  packageJsonContent : Except String PackageJson

/-- Errors thrown inside the `program.action` try-block
(src/bin/index.js lines 39–43 catch all of them). -/
inductive CliError
  | missingFile (name : String)
  | parseError (msg : String)
  | notExpoProject
deriving DecidableEq, Repr

instance : DecidableEq (Except String PackageJson) := fun a b =>
  match a, b with
  | .error x, .error y =>
    if h : x = y then .isTrue (by rw [h]) else .isFalse (by simp [h])
  | .ok x, .ok y =>
    if h : x = y then .isTrue (by rw [h]) else .isFalse (by simp [h])
  | .error _, .ok _ => .isFalse (by simp)
  | .ok _, .error _ => .isFalse (by simp)

/-- `requiredFiles` from src/bin/index.js lines 66–69. -/
def requiredFiles : List String := ["package.json", "app.json"]

/-- `fs.pathExists(path.join(currentDir, file))` for the two files the
validator looks at (src/bin/index.js line 73). -/
def filePresent (d : ProjectDir) (f : String) : Bool :=
  if f = "package.json" then d.hasPackageJson
  else if f = "app.json" then d.hasAppJson
  else false

/-- The `for (const file of requiredFiles)` loop of
src/bin/index.js lines 71–76: throw on the first missing required file. -/
def checkRequiredFiles (d : ProjectDir) : List String → Except CliError Unit
  | [] => .ok ()
  | f :: rest =>
    if filePresent d f then checkRequiredFiles d rest
    else .error (.missingFile f)

/-- The test `packageJson.dependencies && packageJson.dependencies.expo`
of src/bin/index.js line 82. -/
def declaresExpo (pkg : PackageJson) : Bool :=
  match pkg.dependencies with
  | none => false
  | some deps => deps.contains "expo"

/-- `validateProjectDirectory` from src/bin/index.js lines 65–85: check the
required files in order, then parse `package.json` and require an `expo`
entry under its `dependencies` key. -/
def validateProjectDirectory (d : ProjectDir) : Except CliError Unit := do
  checkRequiredFiles d requiredFiles
  match d.packageJsonContent with
  | .error msg => .error (.parseError msg)
  | .ok pkg =>
    if declaresExpo pkg then .ok () else .error .notExpoProject

/-- The options object commander hands to the action callback: each flag is
`some true` when given on the command line and `none` (undefined) otherwise. -/
structure CliOptions where
  force : Option Bool
  overwrite : Option Bool
  skipDeps : Option Bool
deriving DecidableEq, Repr

/-- The options object passed to `new StructureGenerator`
(src/bin/index.js lines 28–31). -/
structure GeneratorOptions where
  force : Bool
  overwrite : Bool
deriving DecidableEq, Repr

/-- JavaScript `x || false` on an optional boolean flag. -/
def orFalse : Option Bool → Bool
  | none => false
  | some b => b

/-- The construction `{ force: options.force || false, overwrite:
options.overwrite || false }` at src/bin/index.js lines 29–30. -/
def generatorOptionsOf (o : CliOptions) : GeneratorOptions :=
  { force := orFalse o.force, overwrite := orFalse o.overwrite }

/-- Result of one run of the `program.action` callback: either the core was
constructed and invoked with the given options, or an error was caught and
the process exited via `process.exit(1)`. -/
inductive ActionResult
  | invoked (gen : GeneratorOptions)
  | failure (e : CliError)
deriving DecidableEq, Repr

/-- The `program.action` callback of src/bin/index.js lines 17–44:
validate the directory first; only when validation succeeds is the
`StructureGenerator` constructed and `generate()` called. -/
def programAction (d : ProjectDir) (o : CliOptions) : ActionResult :=
  match validateProjectDirectory d with
  | .error e => .failure e
  | .ok _ => .invoked (generatorOptionsOf o)

/-- Whether the core was constructed and `generate()` reached. -/
def generatorInvoked : ActionResult → Bool
  | .invoked _ => true
  | .failure _ => false

/-- Process exit code of the action: `process.exit(1)` in the catch block
(src/bin/index.js line 42), implicit 0 on the success path. -/
def exitCode : ActionResult → Nat
  | .invoked _ => 0
  | .failure _ => 1

/-! ## Theorems about the CLI validation path -/

theorem checkRequiredFiles_requiredFiles (d : ProjectDir) :
    checkRequiredFiles d requiredFiles =
      if d.hasPackageJson then
        if d.hasAppJson then .ok () else .error (.missingFile "app.json")
      else .error (.missingFile "package.json") := by
  simp only [requiredFiles, checkRequiredFiles, filePresent]
  by_cases h1 : d.hasPackageJson <;> by_cases h2 : d.hasAppJson <;>
    simp [h1, h2, checkRequiredFiles, filePresent]

theorem validateProjectDirectory_eq (d : ProjectDir) :
    validateProjectDirectory d =
      if d.hasPackageJson then
        if d.hasAppJson then
          match d.packageJsonContent with
          | .error msg => .error (.parseError msg)
          | .ok pkg =>
            if declaresExpo pkg then .ok () else .error .notExpoProject
        else .error (.missingFile "app.json")
      else .error (.missingFile "package.json") := by
  unfold validateProjectDirectory
  rw [checkRequiredFiles_requiredFiles]
  by_cases h1 : d.hasPackageJson <;> by_cases h2 : d.hasAppJson <;>
    simp [h1, h2, Bind.bind, Except.bind]

/-- Claim C1: if the target directory is missing `package.json`, missing
`app.json`, or its `package.json` parses but does not declare `expo` among its
dependencies, the action fails with a caller-level validation error: the
`StructureGenerator` is never constructed, `generate()` is never called, and
the process exits with a non-zero code. -/
theorem cli_precondition_failure_blocks_core (d : ProjectDir) (o : CliOptions)
    (h : d.hasPackageJson = false ∨ d.hasAppJson = false ∨
      (∃ pkg, d.packageJsonContent = Except.ok pkg ∧ declaresExpo pkg = false)) :
    (∃ e, programAction d o = ActionResult.failure e) ∧
      generatorInvoked (programAction d o) = false ∧
      exitCode (programAction d o) ≠ 0 := by
  have hmain : ∃ e, programAction d o = ActionResult.failure e := by
    unfold programAction
    rw [validateProjectDirectory_eq]
    rcases h with h | h | ⟨pkg, hpkg, hexpo⟩
    · rw [h]; exact ⟨_, rfl⟩
    · rw [h]
      by_cases h1 : d.hasPackageJson <;> simp [h1]
    · rw [hpkg]
      by_cases h1 : d.hasPackageJson <;> by_cases h2 : d.hasAppJson <;>
        simp [h1, h2, hexpo]
  obtain ⟨e, he⟩ := hmain
  refine ⟨⟨e, he⟩, ?_, ?_⟩ <;> rw [he] <;> simp [generatorInvoked, exitCode]

/-- Witness for C1: a directory with `package.json` present but `app.json`
missing fails validation before the core runs. -/
theorem cli_precondition_failure_blocks_core_witness :
    (let d : ProjectDir :=
      { hasPackageJson := true, hasAppJson := false,
        packageJsonContent := Except.ok ⟨some ["expo"], none⟩ }
     (d.hasPackageJson = false ∨ d.hasAppJson = false ∨
        (∃ pkg, d.packageJsonContent = Except.ok pkg ∧ declaresExpo pkg = false)) ∧
      ((∃ e, programAction d ⟨none, none, none⟩ = ActionResult.failure e) ∧
        generatorInvoked (programAction d ⟨none, none, none⟩) = false ∧
        exitCode (programAction d ⟨none, none, none⟩) ≠ 0)) := by
  refine ⟨Or.inr (Or.inl rfl), ?_⟩
  exact cli_precondition_failure_blocks_core _ _ (Or.inr (Or.inl rfl))

/-- Claim C9: validation accepts a project only when `package.json` declares
`expo` under the `dependencies` key specifically, and a project declaring
`expo` only under `devDependencies` is rejected with the not-an-Expo-project
error. -/
theorem validation_requires_expo_in_dependencies (d : ProjectDir)
    (pkg : PackageJson) (hpkg : d.packageJsonContent = Except.ok pkg) :
    (validateProjectDirectory d = Except.ok () →
      ∃ deps, pkg.dependencies = some deps ∧ deps.contains "expo" = true) ∧
    (d.hasPackageJson = true → d.hasAppJson = true →
      pkg.dependencies = none →
      pkg.devDependencies = some ["expo"] →
      validateProjectDirectory d = Except.error CliError.notExpoProject) := by
  constructor
  · intro hok
    rw [validateProjectDirectory_eq, hpkg] at hok
    by_cases h1 : d.hasPackageJson <;> by_cases h2 : d.hasAppJson <;>
      simp [h1, h2] at hok
    by_cases h3 : declaresExpo pkg
    · unfold declaresExpo at h3
      cases hdeps : pkg.dependencies with
      | none => rw [hdeps] at h3; simp at h3
      | some deps => rw [hdeps] at h3; exact ⟨deps, rfl, h3⟩
    · simp [h3] at hok
  · intro h1 h2 hdeps _
    rw [validateProjectDirectory_eq, hpkg]
    simp [h1, h2, declaresExpo, hdeps]

/-- Witness for C9: a concrete project with `expo` only in `devDependencies`
is rejected. -/
theorem validation_requires_expo_in_dependencies_witness :
    (let pkg : PackageJson := ⟨none, some ["expo"]⟩
     let d : ProjectDir :=
       { hasPackageJson := true, hasAppJson := true,
         packageJsonContent := Except.ok pkg }
     d.packageJsonContent = Except.ok pkg ∧
       validateProjectDirectory d = Except.error CliError.notExpoProject) := by
  refine ⟨rfl, ?_⟩
  exact (validation_requires_expo_in_dependencies _ _ rfl).2 rfl rfl rfl rfl

/-- Claim C10: when the required files exist but `package.json` is unparseable
JSON, the parse error aborts the whole run with exit code 1 before the core is
invoked — a fatal caller-level error, not a per-file outcome. -/
theorem unparseable_package_json_is_fatal (d : ProjectDir) (o : CliOptions)
    (msg : String)
    (h1 : d.hasPackageJson = true) (h2 : d.hasAppJson = true)
    (hparse : d.packageJsonContent = Except.error msg) :
    programAction d o = ActionResult.failure (CliError.parseError msg) ∧
      generatorInvoked (programAction d o) = false ∧
      exitCode (programAction d o) = 1 := by
  have he : programAction d o = ActionResult.failure (CliError.parseError msg) := by
    unfold programAction
    rw [validateProjectDirectory_eq, hparse]
    simp [h1, h2]
  refine ⟨he, ?_, ?_⟩ <;> rw [he] <;> rfl

/-- Witness for C10: a concrete directory with both files present and a
malformed `package.json` exits with code 1 without invoking the core. -/
theorem unparseable_package_json_is_fatal_witness :
    (let d : ProjectDir :=
      { hasPackageJson := true, hasAppJson := true,
        packageJsonContent := Except.error "Unexpected token" }
     (d.hasPackageJson = true ∧ d.hasAppJson = true ∧
        d.packageJsonContent = Except.error "Unexpected token") ∧
      (programAction d ⟨none, none, none⟩ =
          ActionResult.failure (CliError.parseError "Unexpected token") ∧
        generatorInvoked (programAction d ⟨none, none, none⟩) = false ∧
        exitCode (programAction d ⟨none, none, none⟩) = 1)) := by
  refine ⟨⟨rfl, rfl, rfl⟩, ?_⟩
  exact unparseable_package_json_is_fatal _ _ _ rfl rfl rfl

/-! ## Write Policy Engine and Path Resolver

Modelled from the spec: `lib/generator.js` (required at src/bin/index.js
line 9) is missing from the source tree, so the core is modelled from
spec §3 (data model), §4.1 (Path Resolver) and §4.2 (Write Policy Engine). -/

/-- Modelled from the spec: `WriteMode` of spec §3, derived from the CLI
flags — `Skip` (default), `Force`, `Overwrite` (clean). -/
inductive WriteMode
  | Skip
  | Force
  | Overwrite
deriving DecidableEq, Repr

/-- Modelled from the spec: the flag-to-mode derivation of spec §6 applied to
the options object the CLI hands to the core — `--overwrite` maps to
`WriteMode.Overwrite`, `--force` to `WriteMode.Force`, neither to the
`Skip` default. -/
def modeOf (g : GeneratorOptions) : WriteMode :=
  if g.overwrite then .Overwrite else if g.force then .Force else .Skip

/-- Modelled from the spec: `ManifestEntry.kind` of spec §3 — Directory,
StaticFile (fixed text) or TemplatedFile (text parameterized by a feature
name, rendered by substitution). -/
inductive EntryKind
  | Directory
  | StaticFile (body : String)
  | TemplatedFile (body : String)
deriving DecidableEq, Repr

/-- Modelled from the spec: a `ManifestEntry` of spec §3 — a project-root
relative destination path tagged with a content kind. -/
structure ManifestEntry where
  relativePath : String
  kind : EntryKind
deriving DecidableEq, Repr

/-- Modelled from the spec: the small parameter set of a templated file
(spec §3, "a function of a small parameter set (e.g., feature name)"). -/
structure Params where
  featureName : String
deriving DecidableEq, Repr

/-- The target project's filesystem subtree under the project root, keyed by
project-root-relative path: regular files with their contents, and
directories. -/
structure FS where
  files : List (String × String)
  dirs : List String
deriving DecidableEq, Repr

/-- Modelled from the spec: `FileOutcome.action` of spec §3. -/
inductive Action
  | Created
  | Skipped
  | Overwritten
  | Deleted
  | Failed
deriving DecidableEq, Repr

/-- Modelled from the spec: `FileOutcome` of spec §3 — path, action, optional
error. -/
structure FileOutcome where
  path : String
  action : Action
  error : Option String
deriving DecidableEq, Repr

/-- Modelled from the spec: the result record of the Path Resolver
(spec §4.1): absolute destination path and current existence/type on disk. -/
structure Resolved where
  absolutePath : String
  present : Bool
  isDirectory : Bool
deriving DecidableEq, Repr

def hasFile (fs : FS) (p : String) : Bool :=
  fs.files.any (fun kv => kv.1 = p)

def readFile (fs : FS) (p : String) : Option String :=
  (fs.files.find? (fun kv => kv.1 = p)).map (fun kv => kv.2)

/-- Write `c` to path `p`: replace the content of an existing file, else
append a new file entry. -/
def setFile : List (String × String) → String → String → List (String × String)
  | [], p, c => [(p, c)]
  | kv :: rest, p, c =>
    if kv.1 = p then (p, c) :: rest else kv :: setFile rest p c

def writeFile (fs : FS) (p c : String) : FS :=
  { fs with files := setFile fs.files p c }

/-- Split a path's character list on the separator character. -/
def splitSegs : List Char → List (List Char)
  | [] => [[]]
  | c :: cs =>
    let rest := splitSegs cs
    if c = '/' then [] :: rest
    else
      match rest with
      | [] => [[c]]
      | s :: ss => (c :: s) :: ss

/-- Whether a relative path contains a parent-directory traversal segment. -/
def hasTraversal (p : String) : Bool :=
  (splitSegs p.data).any (fun s => s = ['.', '.'])

/-- Whether a path is absolute. -/
def isAbsolutePath (p : String) : Bool :=
  match p.data with
  | '/' :: _ => true
  | _ => false

/-- Modelled from the spec: the Path Resolver of spec §4.1 —
`resolve(root, relativePath)` computes the absolute destination and its
existence/type, rejecting traversal and absolute segments with
`InvalidPathError`; read-only. -/
def resolve (root : String) (fs : FS) (relativePath : String) :
    Except String Resolved :=
  if hasTraversal relativePath || isAbsolutePath relativePath then
    .error "InvalidPathError"
  else
    .ok { absolutePath := root ++ "/" ++ relativePath,
          present := hasFile fs relativePath || fs.dirs.contains relativePath,
          isDirectory := fs.dirs.contains relativePath }

/-- Modelled from the spec: rendering of spec §3/§9 — StaticFile yields its
fixed text, TemplatedFile substitutes the feature name into its body. -/
def renderEntry (k : EntryKind) (ps : Params) : String :=
  match k with
  | .Directory => ""
  | .StaticFile body => body
  | .TemplatedFile body => body.replace "__FEATURE__" ps.featureName

def isFileKind : EntryKind → Bool
  | .Directory => false
  | .StaticFile _ => true
  | .TemplatedFile _ => true

/-- Modelled from the spec: the per-entry decision procedure of the Write
Policy Engine (spec §4.2 step 2 and the type-conflict tie-break): resolve the
destination, then create / skip / overwrite according to existence and mode;
an invalid path or a type conflict is a `Failed` outcome with nothing
written. -/
def processEntry (root : String) (fs : FS) (mode : WriteMode) (ps : Params)
    (e : ManifestEntry) : FileOutcome × FS :=
  match resolve root fs e.relativePath with
  | .error msg => (⟨e.relativePath, .Failed, some msg⟩, fs)
  | .ok r =>
    match e.kind with
    | .Directory =>
      if r.present then
        if r.isDirectory then (⟨e.relativePath, .Skipped, none⟩, fs)
        else (⟨e.relativePath, .Failed, some "TypeConflictError"⟩, fs)
      else (⟨e.relativePath, .Created, none⟩,
            { fs with dirs := fs.dirs ++ [e.relativePath] })
    | k =>
      let content := renderEntry k ps
      if r.present then
        if r.isDirectory then
          (⟨e.relativePath, .Failed, some "TypeConflictError"⟩, fs)
        else
          match mode with
          | .Skip => (⟨e.relativePath, .Skipped, none⟩, fs)
          | .Force => (⟨e.relativePath, .Overwritten, none⟩,
                       writeFile fs e.relativePath content)
          | .Overwrite => (⟨e.relativePath, .Overwritten, none⟩,
                           writeFile fs e.relativePath content)
      else (⟨e.relativePath, .Created, none⟩,
            writeFile fs e.relativePath content)

/-! ## Lemmas about the engine -/

theorem find?_setFile (l : List (String × String)) (p c : String) :
    (setFile l p c).find? (fun kv => kv.1 = p) = some (p, c) := by
  induction l with
  | nil => simp [setFile, List.find?]
  | cons kv rest ih =>
    by_cases h : kv.1 = p
    · simp [setFile, h, List.find?]
    · simp [setFile, h, List.find?, ih]

theorem readFile_writeFile (fs : FS) (p c : String) :
    readFile (writeFile fs p c) p = some c := by
  unfold readFile writeFile
  simp [find?_setFile]

theorem processEntry_file_eq (root : String) (fs : FS) (mode : WriteMode)
    (ps : Params) (e : ManifestEntry)
    (hk : isFileKind e.kind = true)
    (ht : hasTraversal e.relativePath = false)
    (ha : isAbsolutePath e.relativePath = false)
    (hd : fs.dirs.contains e.relativePath = false) :
    processEntry root fs mode ps e =
      if hasFile fs e.relativePath then
        match mode with
        | .Skip => (⟨e.relativePath, .Skipped, none⟩, fs)
        | .Force => (⟨e.relativePath, .Overwritten, none⟩,
                     writeFile fs e.relativePath (renderEntry e.kind ps))
        | .Overwrite => (⟨e.relativePath, .Overwritten, none⟩,
                         writeFile fs e.relativePath (renderEntry e.kind ps))
      else (⟨e.relativePath, .Created, none⟩,
            writeFile fs e.relativePath (renderEntry e.kind ps)) := by
  obtain ⟨rp, k⟩ := e
  dsimp only at ht ha hd ⊢
  have hd' : rp ∉ fs.dirs := by simpa using hd
  cases k with
  | Directory => simp [isFileKind] at hk
  | StaticFile body =>
    simp only [processEntry, resolve, ht, ha, Bool.or_self, Bool.false_or]
    by_cases hf : hasFile fs rp <;> cases mode <;>
      simp [hf, hd', renderEntry]
  | TemplatedFile body =>
    simp only [processEntry, resolve, ht, ha, Bool.or_self, Bool.false_or]
    by_cases hf : hasFile fs rp <;> cases mode <;>
      simp [hf, hd', renderEntry]

/-- Claim C2: for a file-kind manifest entry at a valid, non-directory
destination — if the destination is absent the rendered content is written
with outcome `Created`; if present, `Skip` yields `Skipped` with the
filesystem untouched while `Force` and `Overwrite` render and overwrite with
outcome `Overwritten`; and in `Force` mode a file entry never receives
outcome `Skipped`. -/
theorem file_entry_write_policy (root : String) (fs : FS) (mode : WriteMode)
    (ps : Params) (ea ep : ManifestEntry)
    (hka : isFileKind ea.kind = true) (hkp : isFileKind ep.kind = true)
    (hta : hasTraversal ea.relativePath = false)
    (haa : isAbsolutePath ea.relativePath = false)
    (htp : hasTraversal ep.relativePath = false)
    (hap : isAbsolutePath ep.relativePath = false)
    (hda : fs.dirs.contains ea.relativePath = false)
    (hdp : fs.dirs.contains ep.relativePath = false)
    (habs : hasFile fs ea.relativePath = false)
    (hpres : hasFile fs ep.relativePath = true) :
    processEntry root fs mode ps ea =
      (⟨ea.relativePath, .Created, none⟩,
        writeFile fs ea.relativePath (renderEntry ea.kind ps)) ∧
    readFile (processEntry root fs mode ps ea).2 ea.relativePath =
      some (renderEntry ea.kind ps) ∧
    processEntry root fs .Skip ps ep = (⟨ep.relativePath, .Skipped, none⟩, fs) ∧
    processEntry root fs .Force ps ep =
      (⟨ep.relativePath, .Overwritten, none⟩,
        writeFile fs ep.relativePath (renderEntry ep.kind ps)) ∧
    processEntry root fs .Overwrite ps ep =
      (⟨ep.relativePath, .Overwritten, none⟩,
        writeFile fs ep.relativePath (renderEntry ep.kind ps)) ∧
    (processEntry root fs .Force ps ea).1.action ≠ .Skipped ∧
    (processEntry root fs .Force ps ep).1.action ≠ .Skipped := by
  have h1 := processEntry_file_eq root fs mode ps ea hka hta haa hda
  have h2 := processEntry_file_eq root fs .Skip ps ep hkp htp hap hdp
  have h3 := processEntry_file_eq root fs .Force ps ep hkp htp hap hdp
  have h4 := processEntry_file_eq root fs .Overwrite ps ep hkp htp hap hdp
  have h5 := processEntry_file_eq root fs .Force ps ea hka hta haa hda
  simp only [habs, Bool.false_eq_true, if_false] at h1 h5
  simp only [hpres, if_true] at h2 h3 h4
  refine ⟨h1, ?_, h2, h3, h4, ?_, ?_⟩
  · rw [h1]; exact readFile_writeFile fs ea.relativePath (renderEntry ea.kind ps)
  · rw [h5]; simp
  · rw [h3]; simp

/-- Witness for C2: a concrete run where `app/index.tsx` is absent and
`src/api.ts` is present; `Force` overwrites, `Skip` skips, absence creates. -/
theorem file_entry_write_policy_witness :
    (let fs : FS := { files := [("src/api.ts", "old")], dirs := ["src"] }
     let ea : ManifestEntry := ⟨"app/index.tsx", .StaticFile "welcome"⟩
     let ep : ManifestEntry := ⟨"src/api.ts", .TemplatedFile "api __FEATURE__"⟩
     (isFileKind ea.kind = true ∧ isFileKind ep.kind = true ∧
       hasTraversal ea.relativePath = false ∧
       isAbsolutePath ea.relativePath = false ∧
       hasTraversal ep.relativePath = false ∧
       isAbsolutePath ep.relativePath = false ∧
       fs.dirs.contains ea.relativePath = false ∧
       fs.dirs.contains ep.relativePath = false ∧
       hasFile fs ea.relativePath = false ∧
       hasFile fs ep.relativePath = true) ∧
     (processEntry "/home/proj" fs .Skip ⟨"home"⟩ ea =
        (⟨"app/index.tsx", .Created, none⟩,
          writeFile fs "app/index.tsx" (renderEntry ea.kind ⟨"home"⟩)) ∧
      readFile (processEntry "/home/proj" fs .Skip ⟨"home"⟩ ea).2
          "app/index.tsx" = some (renderEntry ea.kind ⟨"home"⟩) ∧
      processEntry "/home/proj" fs .Skip ⟨"home"⟩ ep =
        (⟨"src/api.ts", .Skipped, none⟩, fs) ∧
      processEntry "/home/proj" fs .Force ⟨"home"⟩ ep =
        (⟨"src/api.ts", .Overwritten, none⟩,
          writeFile fs "src/api.ts" (renderEntry ep.kind ⟨"home"⟩)) ∧
      processEntry "/home/proj" fs .Overwrite ⟨"home"⟩ ep =
        (⟨"src/api.ts", .Overwritten, none⟩,
          writeFile fs "src/api.ts" (renderEntry ep.kind ⟨"home"⟩)) ∧
      (processEntry "/home/proj" fs .Force ⟨"home"⟩ ea).1.action ≠ .Skipped ∧
      (processEntry "/home/proj" fs .Force ⟨"home"⟩ ep).1.action ≠ .Skipped)) := by
  refine ⟨⟨rfl, rfl, ?_, rfl, ?_, rfl, ?_, ?_, ?_, ?_⟩, ?_⟩
  · decide
  · decide
  · decide
  · decide
  · decide
  · decide
  · exact file_entry_write_policy "/home/proj" _ .Skip ⟨"home"⟩ _ _
      rfl rfl (by decide) rfl (by decide) rfl (by decide) (by decide)
      (by decide) (by decide)

/-- Claim C6: a manifest entry whose relative path contains a
parent-directory traversal segment or an absolute-path segment fails with
`InvalidPathError`, and nothing is written to disk for that entry. -/
theorem traversal_entry_rejected (root : String) (fs : FS) (mode : WriteMode)
    (ps : Params) (e : ManifestEntry)
    (h : hasTraversal e.relativePath = true ∨
      isAbsolutePath e.relativePath = true) :
    resolve root fs e.relativePath = Except.error "InvalidPathError" ∧
    processEntry root fs mode ps e =
      (⟨e.relativePath, .Failed, some "InvalidPathError"⟩, fs) ∧
    (processEntry root fs mode ps e).2 = fs := by
  have hres : resolve root fs e.relativePath = .error "InvalidPathError" := by
    rcases h with h | h <;> simp [resolve, h]
  refine ⟨hres, ?_, ?_⟩ <;> simp [processEntry, hres]

/-- Witness for C6: the entry `../escape.txt` fails with `InvalidPathError`
and leaves the filesystem unchanged. -/
theorem traversal_entry_rejected_witness :
    (let fs : FS := { files := [("src/api.ts", "old")], dirs := ["src"] }
     let e : ManifestEntry := ⟨"../escape.txt", .StaticFile "x"⟩
     (hasTraversal e.relativePath = true ∨ isAbsolutePath e.relativePath = true) ∧
     (resolve "/home/proj" fs e.relativePath =
        Except.error "InvalidPathError" ∧
      processEntry "/home/proj" fs .Force ⟨"home"⟩ e =
        (⟨"../escape.txt", .Failed, some "InvalidPathError"⟩, fs) ∧
      (processEntry "/home/proj" fs .Force ⟨"home"⟩ e).2 = fs)) := by
  refine ⟨Or.inl (by decide), ?_⟩
  exact traversal_entry_rejected "/home/proj" _ .Force ⟨"home"⟩ _
    (Or.inl (by decide))

/-- Counterexample to claim C3: invoking the CLI with both `-f` and `-o`
makes the boundary activate both `force` and `overwrite` in the same run —
the options object handed to the core has both fields true, so the boundary
does not enforce that exactly one mode is active. -/
theorem both_flags_activate_both_modes :
    generatorOptionsOf ⟨some true, some true, none⟩ =
        { force := true, overwrite := true } ∧
      (generatorOptionsOf ⟨some true, some true, none⟩).force = true ∧
      (generatorOptionsOf ⟨some true, some true, none⟩).overwrite = true :=
  ⟨rfl, rfl, rfl⟩

/-- Claim C3 as amended: the CLI-to-core boundary passes `force` and
`overwrite` as independent booleans and activates both when both flags are
given; a single effective mode still governs the run because the mode
derivation gives `Overwrite` precedence, and `Overwrite` carries `Force`
semantics for the creation pass (every entry is processed identically under
the two modes). -/
theorem overwrite_implies_force_semantics :
    generatorOptionsOf ⟨some true, some true, none⟩ =
        { force := true, overwrite := true } ∧
      modeOf { force := true, overwrite := true } = WriteMode.Overwrite ∧
      (∀ root fs ps e, processEntry root fs .Overwrite ps e =
        processEntry root fs .Force ps e) := by
  refine ⟨rfl, rfl, ?_⟩
  intro root fs ps e
  unfold processEntry
  cases hr : resolve root fs e.relativePath with
  | error msg => rfl
  | ok r =>
    cases e.kind with
    | Directory => rfl
    | StaticFile body =>
      by_cases hp : r.present <;> by_cases hd : r.isDirectory <;>
        simp [hp, hd]
    | TemplatedFile body =>
      by_cases hp : r.present <;> by_cases hd : r.isDirectory <;>
        simp [hp, hd]

/-- Claim C4: `--force` maps to `force = true` (mode `Force`), `--overwrite`
to `overwrite = true` (mode `Overwrite`), and with neither flag both options
passed to the generator are false, which derives the `Skip` default: an
existing file entry is left untouched and a missing one is created. -/
theorem cli_flag_mode_mapping (sd : Option Bool) (root : String) (fs : FS)
    (ps : Params) (ea ep : ManifestEntry)
    (hka : isFileKind ea.kind = true) (hkp : isFileKind ep.kind = true)
    (hta : hasTraversal ea.relativePath = false)
    (haa : isAbsolutePath ea.relativePath = false)
    (htp : hasTraversal ep.relativePath = false)
    (hap : isAbsolutePath ep.relativePath = false)
    (hda : fs.dirs.contains ea.relativePath = false)
    (hdp : fs.dirs.contains ep.relativePath = false)
    (habs : hasFile fs ea.relativePath = false)
    (hpres : hasFile fs ep.relativePath = true) :
    generatorOptionsOf ⟨some true, none, sd⟩ =
        { force := true, overwrite := false } ∧
      generatorOptionsOf ⟨none, some true, sd⟩ =
        { force := false, overwrite := true } ∧
      generatorOptionsOf ⟨none, none, sd⟩ =
        { force := false, overwrite := false } ∧
      modeOf { force := true, overwrite := false } = WriteMode.Force ∧
      modeOf { force := false, overwrite := true } = WriteMode.Overwrite ∧
      modeOf { force := false, overwrite := false } = WriteMode.Skip ∧
      processEntry root fs .Skip ps ep =
        (⟨ep.relativePath, .Skipped, none⟩, fs) ∧
      (processEntry root fs .Skip ps ea).1.action = .Created := by
  have h1 := processEntry_file_eq root fs .Skip ps ep hkp htp hap hdp
  have h2 := processEntry_file_eq root fs .Skip ps ea hka hta haa hda
  simp only [hpres, if_true] at h1
  simp only [habs, Bool.false_eq_true, if_false] at h2
  exact ⟨rfl, rfl, rfl, rfl, rfl, rfl, h1, by rw [h2]⟩

/-- Witness for C4: a concrete `Skip`-mode run leaves the existing
`src/api.ts` untouched and creates the absent `app/index.tsx`. -/
theorem cli_flag_mode_mapping_witness :
    (let fs : FS := { files := [("src/api.ts", "old")], dirs := ["src"] }
     let ea : ManifestEntry := ⟨"app/index.tsx", .StaticFile "welcome"⟩
     let ep : ManifestEntry := ⟨"src/api.ts", .StaticFile "new"⟩
     (isFileKind ea.kind = true ∧ isFileKind ep.kind = true ∧
       hasTraversal ea.relativePath = false ∧
       isAbsolutePath ea.relativePath = false ∧
       hasTraversal ep.relativePath = false ∧
       isAbsolutePath ep.relativePath = false ∧
       fs.dirs.contains ea.relativePath = false ∧
       fs.dirs.contains ep.relativePath = false ∧
       hasFile fs ea.relativePath = false ∧
       hasFile fs ep.relativePath = true) ∧
     (generatorOptionsOf ⟨some true, none, none⟩ =
         { force := true, overwrite := false } ∧
       generatorOptionsOf ⟨none, some true, none⟩ =
         { force := false, overwrite := true } ∧
       generatorOptionsOf ⟨none, none, none⟩ =
         { force := false, overwrite := false } ∧
       modeOf { force := true, overwrite := false } = WriteMode.Force ∧
       modeOf { force := false, overwrite := true } = WriteMode.Overwrite ∧
       modeOf { force := false, overwrite := false } = WriteMode.Skip ∧
       processEntry "/home/proj" fs .Skip ⟨"home"⟩ ep =
         (⟨"src/api.ts", .Skipped, none⟩, fs) ∧
       (processEntry "/home/proj" fs .Skip ⟨"home"⟩ ea).1.action =
         .Created)) := by
  refine ⟨⟨rfl, rfl, by decide, by decide, by decide, by decide,
    by decide, by decide, by decide, by decide⟩, ?_⟩
  exact cli_flag_mode_mapping none "/home/proj" _ ⟨"home"⟩ _ _
    rfl rfl (by decide) (by decide) (by decide) (by decide)
    (by decide) (by decide) (by decide) (by decide)

/-! ## Config Patcher

Modelled from the spec: the Config Patcher of spec §4.3 lives in the missing
`lib/generator.js`, so it is modelled from the spec's contract:
`patch(filePath, format, requiredSections, forced)` synthesizes a minimal
document when the file is absent, applies `AddIfMissing` (or `ReplaceIfForced`
when forced) per required section over parsed content, fails on unparseable
content, and writes back only if the document changed. -/

/-- Modelled from the spec: one required top-level section/key with its
default value (`ConfigPatch` of spec §3). -/
structure RequiredSection where
  key : String
  defaultValue : String
deriving DecidableEq, Repr

/-- An ordered top-level key/value view of a structured config document. -/
abbrev ConfigDoc := List (String × String)

def hasKey (doc : ConfigDoc) (k : String) : Bool :=
  doc.any (fun kv => kv.1 = k)

/-- Modelled from the spec: the per-key merge rule of spec §4.3 —
`AddIfMissing` inserts the section only if absent, preserving existing keys
and their order; `ReplaceIfForced` overwrites the key's value even if
present. -/
def applySection (forced : Bool) (doc : ConfigDoc) (s : RequiredSection) :
    ConfigDoc :=
  if hasKey doc s.key then
    if forced then
      doc.map (fun kv => if kv.1 = s.key then (kv.1, s.defaultValue) else kv)
    else doc
  else doc ++ [(s.key, s.defaultValue)]

/-- Merge every required section into the document, in order. -/
def patchDoc (doc : ConfigDoc) (required : List RequiredSection)
    (forced : Bool) : ConfigDoc :=
  required.foldl (applySection forced) doc

/-- The on-disk state of a config file as the patcher sees it: absent,
present but unparseable, or parsed. -/
inductive ConfigFile
  | absent
  | malformed (raw : String)
  | parsed (doc : ConfigDoc)
deriving DecidableEq, Repr

/-- Result of one `patch` call: the changed flag, the file outcome action,
and the resulting on-disk state. -/
structure PatchResult where
  changed : Bool
  action : Action
  newFile : ConfigFile
deriving DecidableEq, Repr

/-- Modelled from the spec: `patch` of spec §4.3 — absent file: synthesize a
minimal document with exactly the required sections (`Created`); unparseable
file: `Failed` with `MalformedConfigError` and no text surgery; parsed file:
merge and write back only if the resulting document differs. -/
def patch (file : ConfigFile) (required : List RequiredSection)
    (forced : Bool) : PatchResult :=
  match file with
  | .absent =>
    { changed := true, action := .Created,
      newFile := .parsed (patchDoc [] required forced) }
  | .malformed raw =>
    { changed := false, action := .Failed, newFile := .malformed raw }
  | .parsed doc =>
    let d := patchDoc doc required forced
    if d = doc then
      { changed := false, action := .Skipped, newFile := .parsed doc }
    else
      { changed := true, action := .Overwritten, newFile := .parsed d }

/-! ### Idempotence of the document merge -/

/-- A document needs nothing more from section `s`: the key is present, and
under `forced` every binding of the key already carries the default value. -/
def sectionSettled (forced : Bool) (doc : ConfigDoc) (s : RequiredSection) :
    Prop :=
  hasKey doc s.key = true ∧
    (forced = true → ∀ kv ∈ doc, kv.1 = s.key → kv.2 = s.defaultValue)

theorem hasKey_false_forall (doc : ConfigDoc) (k : String)
    (h : hasKey doc k = false) : ∀ kv ∈ doc, kv.1 ≠ k := by
  intro kv hm hk
  have hmem : hasKey doc k = true :=
    List.any_eq_true.mpr ⟨kv, hm, by simp [hk]⟩
  rw [hmem] at h
  cases h

theorem hasKey_append_left (doc l : ConfigDoc) (k : String)
    (h : hasKey doc k = true) : hasKey (doc ++ l) k = true := by
  simp only [hasKey, List.any_append, Bool.or_eq_true]
  exact Or.inl h

theorem hasKey_append_self (doc : ConfigDoc) (k v : String) :
    hasKey (doc ++ [(k, v)]) k = true := by
  simp [hasKey, List.any_append]

theorem hasKey_map_replace (doc : ConfigDoc) (k v s : String)
    (h : hasKey doc s = true) :
    hasKey (doc.map (fun kv => if kv.1 = k then (kv.1, v) else kv)) s
      = true := by
  induction doc with
  | nil => exact absurd h (by simp [hasKey])
  | cons kv rest ih =>
    simp only [hasKey, List.map_cons, List.any_cons, Bool.or_eq_true,
      decide_eq_true_eq] at h ⊢
    rcases h with h | h
    · left
      by_cases hk : kv.1 = k
      · rw [if_pos hk]; exact hk ▸ h
      · rw [if_neg hk]; exact h
    · right
      exact ih h

theorem val_mem_map_replace (doc : ConfigDoc) (k v : String) :
    ∀ kv ∈ doc.map (fun kv => if kv.1 = k then (kv.1, v) else kv),
      kv.1 = k → kv.2 = v := by
  induction doc with
  | nil => intro kv hm; cases hm
  | cons kv0 rest ih =>
    intro kv hm hke
    rw [List.map_cons, List.mem_cons] at hm
    rcases hm with hm | hm
    · by_cases hk : kv0.1 = k
      · rw [if_pos hk] at hm
        subst hm
        rfl
      · rw [if_neg hk] at hm
        subst hm
        exact absurd hke hk
    · exact ih kv hm hke

theorem val_mem_map_replace_other (doc : ConfigDoc) (k v s w : String)
    (h : ∀ kv ∈ doc, kv.1 = s → kv.2 = w) (hne : k ≠ s) :
    ∀ kv ∈ doc.map (fun kv => if kv.1 = k then (kv.1, v) else kv),
      kv.1 = s → kv.2 = w := by
  induction doc with
  | nil => intro kv hm; cases hm
  | cons kv0 rest ih =>
    intro kv hm hke
    rw [List.map_cons, List.mem_cons] at hm
    rcases hm with hm | hm
    · by_cases hk : kv0.1 = k
      · rw [if_pos hk] at hm
        rw [hm] at hke
        exact absurd (hk.symm.trans hke) hne
      · rw [if_neg hk] at hm
        rw [hm] at hke ⊢
        exact h kv0 (List.mem_cons_self kv0 rest) hke
    · exact ih (fun kv' hm' => h kv' (List.mem_cons_of_mem kv0 hm')) kv hm hke

theorem map_replaceValue_eq_self (doc : ConfigDoc) (k v : String)
    (h : ∀ kv ∈ doc, kv.1 = k → kv.2 = v) :
    doc.map (fun kv => if kv.1 = k then (kv.1, v) else kv) = doc := by
  induction doc with
  | nil => rfl
  | cons kv rest ih =>
    rw [List.map_cons]
    congr 1
    · by_cases hk : kv.1 = k
      · rw [if_pos hk, ← h kv (List.mem_cons_self kv rest) hk]
      · rw [if_neg hk]
    · exact ih fun kv' hm hk => h kv' (List.mem_cons_of_mem kv hm) hk

theorem applySection_of_settled (forced : Bool) (doc : ConfigDoc)
    (s : RequiredSection) (h : sectionSettled forced doc s) :
    applySection forced doc s = doc := by
  obtain ⟨h1, h2⟩ := h
  unfold applySection
  rw [if_pos h1]
  cases forced with
  | false => rw [if_neg (by simp)]
  | true =>
    rw [if_pos rfl]
    exact map_replaceValue_eq_self doc s.key s.defaultValue (h2 rfl)

theorem settled_applySection_self (forced : Bool) (doc : ConfigDoc)
    (s : RequiredSection) :
    sectionSettled forced (applySection forced doc s) s := by
  unfold applySection
  by_cases hk : hasKey doc s.key
  · rw [if_pos hk]
    cases forced with
    | false =>
      rw [if_neg (by simp)]
      exact ⟨hk, by intro h; cases h⟩
    | true =>
      rw [if_pos rfl]
      refine ⟨hasKey_map_replace doc s.key s.defaultValue s.key hk, ?_⟩
      intro _
      exact val_mem_map_replace doc s.key s.defaultValue
  · rw [if_neg hk]
    refine ⟨hasKey_append_self doc s.key s.defaultValue, ?_⟩
    intro _ kv hm hke
    rcases List.mem_append.mp hm with hm | hm
    · exact absurd hke
        (hasKey_false_forall doc s.key (Bool.not_eq_true _ ▸ eq_false_of_ne_true hk) kv hm)
    · rw [List.mem_singleton] at hm
      subst hm
      rfl

theorem settled_applySection_other (forced : Bool) (doc : ConfigDoc)
    (s t : RequiredSection) (h : sectionSettled forced doc s)
    (hne : t.key ≠ s.key) :
    sectionSettled forced (applySection forced doc t) s := by
  obtain ⟨h1, h2⟩ := h
  unfold applySection
  by_cases ht : hasKey doc t.key
  · rw [if_pos ht]
    by_cases hf : forced = true
    · rw [if_pos hf]
      refine ⟨hasKey_map_replace doc t.key t.defaultValue s.key h1, ?_⟩
      intro hft
      exact val_mem_map_replace_other doc t.key t.defaultValue s.key
        s.defaultValue (h2 hft) hne
    · rw [if_neg hf]
      exact ⟨h1, h2⟩
  · rw [if_neg ht]
    refine ⟨hasKey_append_left doc _ s.key h1, ?_⟩
    intro hft kv hm hke
    rcases List.mem_append.mp hm with hm | hm
    · exact h2 hft kv hm hke
    · rw [List.mem_singleton] at hm
      subst hm
      exact absurd hke hne

theorem patchDoc_preserves_settled (forced : Bool) (s : RequiredSection)
    (required : List RequiredSection) (doc : ConfigDoc)
    (hk : ∀ t ∈ required, t.key ≠ s.key)
    (h : sectionSettled forced doc s) :
    sectionSettled forced (patchDoc doc required forced) s := by
  induction required generalizing doc with
  | nil => exact h
  | cons t rest ih =>
    exact ih (applySection forced doc t)
      (fun u hu => hk u (List.mem_cons_of_mem t hu))
      (settled_applySection_other forced doc s t h
        (hk t (List.mem_cons_self t rest)))

theorem patchDoc_settled (forced : Bool) (required : List RequiredSection)
    (doc : ConfigDoc) (hnd : (required.map RequiredSection.key).Nodup) :
    ∀ s ∈ required, sectionSettled forced (patchDoc doc required forced) s := by
  induction required generalizing doc with
  | nil => intro s hs; cases hs
  | cons t rest ih =>
    simp only [List.map_cons, List.nodup_cons] at hnd
    obtain ⟨hnotin, hnd'⟩ := hnd
    intro s hs
    rcases List.mem_cons.mp hs with hs | hs
    · subst hs
      exact patchDoc_preserves_settled forced s rest
        (applySection forced doc s)
        (fun u hu hk =>
          hnotin (hk ▸ List.mem_map_of_mem RequiredSection.key hu))
        (settled_applySection_self forced doc s)
    · exact ih (applySection forced doc t) hnd' s hs

theorem patchDoc_of_settled (forced : Bool) (required : List RequiredSection)
    (doc : ConfigDoc)
    (h : ∀ s ∈ required, sectionSettled forced doc s) :
    patchDoc doc required forced = doc := by
  induction required with
  | nil => rfl
  | cons t rest ih =>
    unfold patchDoc
    simp only [List.foldl_cons]
    rw [applySection_of_settled forced doc t (h t (List.mem_cons_self t rest))]
    exact ih (fun s hs => h s (List.mem_cons_of_mem t hs))

theorem patchDoc_idem (forced : Bool) (required : List RequiredSection)
    (doc : ConfigDoc) (hnd : (required.map RequiredSection.key).Nodup) :
    patchDoc (patchDoc doc required forced) required forced =
      patchDoc doc required forced :=
  patchDoc_of_settled forced required _ (patchDoc_settled forced required doc hnd)

/-- Claim C5: config patching is idempotent — for any config file and fixed
inputs (required sections with pairwise distinct keys, forced flag), running
`patch` on the output of an identical `patch` call yields `changed = false`
and leaves the document exactly as the first call produced it. -/
theorem config_patch_idempotent (file : ConfigFile)
    (required : List RequiredSection) (forced : Bool)
    (hnd : (required.map RequiredSection.key).Nodup) :
    (patch (patch file required forced).newFile required forced).changed =
        false ∧
      (patch (patch file required forced).newFile required forced).newFile =
        (patch file required forced).newFile := by
  cases file with
  | absent =>
    simp only [patch]
    rw [patchDoc_idem forced required [] hnd]
    simp
  | malformed raw => simp [patch]
  | parsed doc =>
    by_cases h : patchDoc doc required forced = doc
    · simp [patch, h]
    · simp only [patch, h, if_false]
      rw [patchDoc_idem forced required doc hnd]
      simp

/-- Witness for C5: patching a concrete `package.json`-style document twice
with the same required sections changes nothing the second time. -/
theorem config_patch_idempotent_witness :
    (let file := ConfigFile.parsed [("name", "my-app")]
     let required : List RequiredSection :=
       [⟨"exports", "./*"⟩, ⟨"name", "generated"⟩]
     ((required.map RequiredSection.key).Nodup) ∧
     ((patch (patch file required false).newFile required false).changed =
         false ∧
       (patch (patch file required false).newFile required false).newFile =
         (patch file required false).newFile)) := by
  refine ⟨by decide, ?_⟩
  exact config_patch_idempotent _ _ false (by decide)

/-! ## Success message and dependency handling, from src/bin/index.js -/

/-- An observable side effect of the caller: a console message (identified by
a short tag for its content) or an invocation of a package manager to install
dependencies. -/
inductive Effect
  | print (tag : String)
  | runInstall
deriving DecidableEq, Repr

/-- The unconditional console output of `showSuccessMessage`
(src/bin/index.js lines 91–189), as content tags in code order. -/
def successMessages : List Effect :=
  [.print "architecture-created", .print "project-structure",
   .print "next-steps", .print "install-required-deps",
   .print "package-json-aliases", .print "tsconfig-paths",
   .print "metro-config", .print "start-dev-server"]

/-- `showSuccessMessage` from src/bin/index.js lines 90–197: the fixed
message sequence, then — only when `options.skipDeps` is falsy — the
"Installing dependencies automatically" banner (the install-trigger signal;
the body behind it is an unimplemented comment, so no installation runs),
then the closing message. -/
def showSuccessMessage (skipDeps : Bool) : List Effect :=
  successMessages ++
    (if skipDeps then [] else [Effect.print "installing-deps-banner"]) ++
    [Effect.print "happy-coding"]

/-- Claim C7: with `--skip-deps` the caller triggers no package-manager
installation — in fact neither run ever emits an install effect — and the
only behavioral difference from a run without the flag is the suppressed
install-trigger banner: filtering that banner out of the no-flag run yields
exactly the flagged run, and the rest of the action (validation result and
generator options) ignores the flag entirely. -/
theorem skip_deps_only_suppresses_trigger :
    (∀ b, Effect.runInstall ∉ showSuccessMessage b) ∧
      (showSuccessMessage false).filter
          (fun e => e != Effect.print "installing-deps-banner") =
        showSuccessMessage true ∧
      (∀ d f o s s', programAction d ⟨f, o, s⟩ = programAction d ⟨f, o, s'⟩) := by
  refine ⟨?_, by decide, ?_⟩
  · intro b
    cases b <;> decide
  · intro d f o s s'
    unfold programAction
    cases validateProjectDirectory d <;> rfl

/-- Registration targets of the module-level `process.on` calls. -/
inductive ProcessEvent
  | uncaughtException
  | unhandledRejection
deriving DecidableEq, Repr

/-- A process-wide handler registration: the event listened to and the exit
code the handler calls `process.exit` with. -/
structure HandlerRegistration where
  event : ProcessEvent
  exitCodeUsed : Nat
deriving DecidableEq, Repr

/-- The module-level handler registrations of src/bin/index.js lines
200–208: `process.on('uncaughtException', ...)` and
`process.on('unhandledRejection', ...)`, each printing the error and calling
`process.exit(1)`. -/
def registeredProcessHandlers : List HandlerRegistration :=
  [⟨.uncaughtException, 1⟩, ⟨.unhandledRejection, 1⟩]

/-- Counterexample to claim C8: the implementation does register manual
process-wide catch-all handlers — the registration list is nonempty and
contains both an uncaught-exception and an unhandled-rejection handler
(src/bin/index.js lines 200–208). -/
theorem process_handlers_registered :
    registeredProcessHandlers ≠ [] ∧
      (registeredProcessHandlers.any
        (fun h => h.event = ProcessEvent.uncaughtException)) = true ∧
      (registeredProcessHandlers.any
        (fun h => h.event = ProcessEvent.unhandledRejection)) = true := by
  refine ⟨by decide, rfl, rfl⟩

/-- Claim C8 as amended: the implementation registers exactly two manual
process-wide handlers — one for uncaught exceptions and one for unhandled
rejections — and each is a top-level catch-all that exits the process with
code 1. -/
theorem process_handlers_exact :
    registeredProcessHandlers =
        [⟨ProcessEvent.uncaughtException, 1⟩,
         ⟨ProcessEvent.unhandledRejection, 1⟩] ∧
      (∀ h ∈ registeredProcessHandlers, h.exitCodeUsed = 1) := by
  refine ⟨rfl, ?_⟩
  intro h hm
  rcases List.mem_cons.mp hm with hm | hm
  · rw [hm]
  · rcases List.mem_cons.mp hm with hm | hm
    · rw [hm]
    · cases hm

/-- Witness for the amended C8: the uncaught-exception handler registration
is in the list and exits with code 1. -/
theorem process_handlers_exact_witness :
    (⟨ProcessEvent.uncaughtException, 1⟩ : HandlerRegistration) ∈
        registeredProcessHandlers ∧
      (⟨ProcessEvent.uncaughtException, 1⟩ : HandlerRegistration).exitCodeUsed
        = 1 :=
  ⟨by decide, process_handlers_exact.2 ⟨ProcessEvent.uncaughtException, 1⟩
    (by decide)⟩

end MVVM
